import Mathlib

/-!
Verification development for the Callora API-monetization gateway.

The core request-proxying and billing pipeline is embedded shallowly:
pure functions of the source become Lean functions, stateful classes become
explicit state-passing functions, JS numbers used for prices/balances are
modelled as rationals, and `Date.now()` timestamps/time arithmetic as
integers supplied explicitly to each call.

Source files embedded here:
  - services/usageStore.ts   (idempotent InMemoryUsageStore)
  - data/apiRegistry.ts      (resolveEndpointPrice)
  - services/rateLimiter.ts  (InMemoryRateLimiter)
  - services/billingService.ts (MockSorobanBilling)
  - routes/proxyRoutes.ts    (header forwarding, auth, balance pre-check,
                              upstream error classification, background
                              usage-recording / billing step)
  - services/billing.ts      (BillingService ledger; the implementation file
                              is not in the repository snapshot, only its
                              unit tests are, so it is modelled from the
                              spec, as marked below)
-/

namespace Callora

/-- Model of JS `String.prototype.startsWith`: the first argument starts with
the second.  Defined on the character lists so that it is structurally
computable (Lean has the same semantics via byte positions). -/
def strStartsWith (s pre : String) : Bool :=
  pre.data.isPrefixOf s.data

/-- Model of JS `String.prototype.toLowerCase` (ASCII header names). -/
def lowerStr (s : String) : String :=
  ⟨s.data.map Char.toLower⟩

/-- Set a key in an association list, JS `Map.set` / object-assignment
semantics: an existing binding of the exact key is replaced in place,
otherwise the binding is appended. -/
def setAssoc {β : Type} (l : List (String × β)) (k : String) (v : β) :
    List (String × β) :=
  match l with
  | [] => [(k, v)]
  | (k', v') :: rest =>
    if k' == k then (k, v) :: rest else (k', v') :: setAssoc rest k v

/-- Look a key up in an association list, JS `Map.get` semantics. -/
def getAssoc {β : Type} (l : List (String × β)) (k : String) : Option β :=
  (l.find? (fun p => p.1 == k)).map Prod.snd

/-! ## Usage store — services/usageStore.ts (idempotent version) -/

/-- A single recorded usage event (types/gateway.ts `UsageEvent`). -/
structure UsageEvent where
  id : String
  requestId : String
  apiKey : String
  apiKeyId : String
  apiId : String
  endpointId : String
  userId : String
  amountUsdc : ℚ
  statusCode : Nat
  timestamp : String
deriving DecidableEq, Repr

/-- State of `InMemoryUsageStore`: the `events` array and the `requestIds`
set.  The set is modelled as a duplicate-free list in insertion order. -/
structure UsageStoreState where
  events : List UsageEvent
  requestIds : List String
deriving DecidableEq, Repr

def UsageStoreState.empty : UsageStoreState := ⟨[], []⟩

/-- `InMemoryUsageStore.record`: returns `false` and leaves the store
unchanged when an event with the same `requestId` already exists, otherwise
appends the event, adds the `requestId` to the set, and returns `true`. -/
def UsageStoreState.record (st : UsageStoreState) (event : UsageEvent) :
    UsageStoreState × Bool :=
  if event.requestId ∈ st.requestIds then
    (st, false)
  else
    ({ events := st.events ++ [event],
       requestIds := st.requestIds ++ [event.requestId] }, true)

/-- `InMemoryUsageStore.hasEvent`. -/
def UsageStoreState.hasEvent (st : UsageStoreState) (requestId : String) : Bool :=
  decide (requestId ∈ st.requestIds)

/-- `InMemoryUsageStore.getEvents` with an optional `apiKey` filter. -/
def UsageStoreState.getEvents (st : UsageStoreState) (apiKey : Option String) :
    List UsageEvent :=
  match apiKey with
  | some k => st.events.filter (fun e => e.apiKey == k)
  | none => st.events

/-- Run a sequence of `record` calls, discarding the returned booleans. -/
def UsageStoreState.runRecords (st : UsageStoreState) :
    List UsageEvent → UsageStoreState
  | [] => st
  | e :: rest => ((st.record e).1).runRecords rest

/-! ## Pricing resolver — data/apiRegistry.ts -/

/-- Pricing for a single endpoint within an API (types/gateway.ts). -/
structure EndpointPricing where
  endpointId : String
  path : String
  priceUsdc : ℚ
deriving DecidableEq, Repr

/-- The comparison used by `resolveEndpointPrice`'s sort
`(a, b) => b.path.length - a.path.length`: `a` may come before `b` exactly
when `a`'s pattern is at least as long.  JS `Array.prototype.sort` is
stable, so the sort is modelled by `List.insertionSort` with this relation,
which is the stable descending-by-length sort. -/
def epGE (a b : EndpointPricing) : Prop :=
  b.path.length ≤ a.path.length

instance : DecidableRel epGE := fun _ _ => Nat.decLe _ _

instance : IsTotal EndpointPricing epGE :=
  ⟨fun a b => Nat.le_total b.path.length a.path.length⟩

instance : IsTrans EndpointPricing epGE :=
  ⟨fun _ _ _ hab hbc => le_trans hbc hab⟩

/-- Leading-slash normalisation used in `resolveEndpointPrice`. -/
def normalise (p : String) : String :=
  if strStartsWith p "/" then p else "/" ++ p

/-- `resolveEndpointPrice(endpoints, path)`: normalise the path, sort the
non-wildcard patterns by descending pattern length (stably), return the
first whose normalised pattern is a prefix of the normalised path; fall
back to the `"*"` entry, then to a synthetic free default. -/
def resolveEndpointPrice (endpoints : List EndpointPricing) (path : String) :
    EndpointPricing :=
  let normalised := normalise path
  let sorted := List.insertionSort epGE
    (endpoints.filter (fun e => !(e.path == "*")))
  match sorted.find? (fun ep => strStartsWith normalised (normalise ep.path)) with
  | some ep => ep
  | none =>
    match endpoints.find? (fun e => e.path == "*") with
    | some wildcard => wildcard
    | none => { endpointId := "default", path := "*", priceUsdc := 0 }

/-- One step of the claimed selection rule: combine the earlier element `x`
with the best match of the later elements, preferring `x` on ties. -/
def pickBest (q : EndpointPricing → Bool) (x : EndpointPricing) :
    Option EndpointPricing → Option EndpointPricing
  | none => if q x then some x else none
  | some y =>
    if q x then (if x.path.length < y.path.length then some y else some x)
    else some y

/-- Among the elements satisfying `q`, the one with the longest pattern,
ties broken by original list order. -/
def bestMatch (q : EndpointPricing → Bool) : List EndpointPricing → Option EndpointPricing
  | [] => none
  | x :: l => pickBest q x (bestMatch q l)

/-- The pricing rule as the spec words it: among all non-wildcard patterns
whose normalised path is a prefix of the normalised sub-path, the one with
the longest pattern (ties by original order); else the `"*"` entry when
present; else a synthetic zero-price default. -/
def resolveEndpointPriceSpec (endpoints : List EndpointPricing) (path : String) :
    EndpointPricing :=
  let normalised := normalise path
  match bestMatch
      (fun e => !(e.path == "*") && strStartsWith normalised (normalise e.path))
      endpoints with
  | some ep => ep
  | none =>
    match endpoints.find? (fun e => e.path == "*") with
    | some wildcard => wildcard
    | none => { endpointId := "default", path := "*", priceUsdc := 0 }

/-! ## Rate limiter — services/rateLimiter.ts -/

/-- A per-key bucket: remaining `tokens` and the window start `lastRefill`
(milliseconds).  Times are integers (model of JS epoch milliseconds). -/
structure TokenBucket where
  tokens : Int
  lastRefill : Int
deriving DecidableEq, Repr

/-- Result of a rate-limit check (types/gateway.ts `RateLimitResult`);
`retryAfterMs` is only present on denial. -/
structure RateLimitResult where
  allowed : Bool
  retryAfterMs : Option Int
deriving DecidableEq, Repr

/-- State of `InMemoryRateLimiter`: the bucket map plus the constructor
parameters `maxRequests` and `windowMs`. -/
structure InMemoryRateLimiter where
  buckets : List (String × TokenBucket)
  maxRequests : Int
  windowMs : Int
deriving DecidableEq, Repr

/-- `InMemoryRateLimiter.check(apiKey)` at time `now`: create the bucket
with full tokens on first sight, refill when the window has elapsed, deny
with a clamped `retryAfterMs` when no tokens remain, otherwise consume one
token. -/
def InMemoryRateLimiter.check (st : InMemoryRateLimiter) (apiKey : String)
    (now : Int) : InMemoryRateLimiter × RateLimitResult :=
  let bucket0 := (getAssoc st.buckets apiKey).getD ⟨st.maxRequests, now⟩
  let bucket :=
    if st.windowMs ≤ now - bucket0.lastRefill then
      (⟨st.maxRequests, now⟩ : TokenBucket)
    else bucket0
  if bucket.tokens ≤ 0 then
    ({ st with buckets := setAssoc st.buckets apiKey bucket },
     { allowed := false,
       retryAfterMs := some (max (st.windowMs - (now - bucket.lastRefill)) 0) })
  else
    ({ st with buckets :=
        setAssoc st.buckets apiKey ⟨bucket.tokens - 1, bucket.lastRefill⟩ },
     { allowed := true, retryAfterMs := none })

/-! ## Billing mock — services/billingService.ts -/

/-- Result of a billing deduction attempt (types/gateway.ts
`BillingResult`; the mock always reports the balance). -/
structure BillingResult where
  success : Bool
  balance : ℚ
deriving DecidableEq, Repr

/-- State of `MockSorobanBilling`: per-developer balances. -/
structure MockSorobanBilling where
  balances : List (String × ℚ)
deriving DecidableEq, Repr

/-- `balances.get(developerId) ?? 0`. -/
def MockSorobanBilling.getBalance (st : MockSorobanBilling)
    (developerId : String) : ℚ :=
  (getAssoc st.balances developerId).getD 0

/-- `MockSorobanBilling.deductCredit`: fail (leaving the balance untouched)
when the current balance is below the amount, otherwise subtract exactly
the amount. -/
def MockSorobanBilling.deductCredit (st : MockSorobanBilling)
    (developerId : String) (amount : ℚ) : MockSorobanBilling × BillingResult :=
  let current := st.getBalance developerId
  if current < amount then
    (st, { success := false, balance := current })
  else
    ({ balances := setAssoc st.balances developerId (current - amount) },
     { success := true, balance := current - amount })

/-- `MockSorobanBilling.checkBalance` (read-only). -/
def MockSorobanBilling.checkBalance (st : MockSorobanBilling)
    (developerId : String) : ℚ :=
  st.getBalance developerId

/-! ## Proxy route — routes/proxyRoutes.ts -/

/-- A registered API key (types/gateway.ts `ApiKey`). -/
structure ApiKey where
  key : String
  developerId : String
  apiId : String
deriving DecidableEq, Repr

/-- A registry entry (data/apiRegistry.ts `ApiRegistryEntry`). -/
structure ApiRegistryEntry where
  id : String
  slug : String
  base_url : String
  developerId : String
  endpoints : List EndpointPricing
deriving DecidableEq, Repr

/-- `DEFAULT_STRIP_HEADERS`: headers never forwarded to the upstream. -/
def DEFAULT_STRIP_HEADERS : List String :=
  ["host", "x-api-key", "connection", "keep-alive", "transfer-encoding",
   "te", "trailer", "upgrade", "proxy-authorization", "proxy-connection"]

/-- The default recordable-status predicate
`(code) => code >= 200 && code < 300`. -/
def defaultRecordable (code : Nat) : Bool :=
  decide (200 ≤ code) && decide (code < 300)

/-- An inbound header value as it appears in `req.headers`: a string or a
string array (`typeof value === 'string'` distinguishes them). -/
inductive HeaderValue where
  | str : String → HeaderValue
  | strs : List String → HeaderValue
deriving DecidableEq, Repr

/-- The header-copy loop of step 6 of `handleProxy`: walk the inbound
entries in order; each string-valued header whose lower-cased name is not
in the strip set is assigned into the outbound header object. -/
def copyHeaders (stripSet : List String) :
    List (String × String) → List (String × HeaderValue) → List (String × String)
  | acc, [] => acc
  | acc, (k, v) :: rest =>
    match v with
    | .str s =>
      copyHeaders stripSet
        (if stripSet.contains (lowerStr k) then acc else setAssoc acc k s) rest
    | .strs _ => copyHeaders stripSet acc rest

/-- Step 6 of `handleProxy`: copy every string-valued inbound header whose
lower-cased name is not in the strip set into a fresh outbound header
object, then assign `x-request-id` to the freshly generated request id. -/
def buildForwardHeaders (stripHeaders : List String)
    (inbound : List (String × HeaderValue)) (requestId : String) :
    List (String × String) :=
  setAssoc (copyHeaders (stripHeaders.map lowerStr) [] inbound)
    "x-request-id" requestId

/-- Step 2 of `handleProxy` (after the API entry resolved and the header is
present): `apiKeys.get(header)`; a missing record or a record whose `apiId`
differs from the resolved entry's id are both rejected with the same
401 response.  Returns `some (status, message)` on rejection. -/
def authResponse (apiKeys : List (String × ApiKey)) (apiKeyHeader : String)
    (entryId : String) : Option (Nat × String) :=
  match getAssoc apiKeys apiKeyHeader with
  | none => some (401, "Unauthorized: invalid API key")
  | some keyRecord =>
    if keyRecord.apiId == entryId then none
    else some (401, "Unauthorized: invalid API key")

/-- Step 4 of `handleProxy`: the pre-proxy balance check rejects with 402
only when the balance is `<= 0`. -/
def balancePreCheck (currentBalance : ℚ) : Option (Nat × String) :=
  if currentBalance ≤ 0 then
    some (402, "Payment Required: insufficient balance")
  else none

/-- Outcome of the upstream `fetch` in step 7: a received response, the
`AbortSignal.timeout` deadline firing (`DOMException` `TimeoutError`), an
undici connect-timeout (`TypeError` with code `UND_ERR_CONNECT_TIMEOUT`),
or any other fetch failure (e.g. `ECONNREFUSED` from a closed port, or an
unreachable host). -/
inductive UpstreamOutcome where
  | response (status : Nat)
  | timeoutError
  | connectTimeout
  | otherFailure
deriving DecidableEq, Repr

/-- The `upstreamStatus` variable after the try/catch of step 7: the
upstream's own status on success, 504 for both timeout classes, 502
otherwise.  This is also the status of the response sent to the client in
the failure branches. -/
def upstreamStatusOf : UpstreamOutcome → Nat
  | .response s => s
  | .timeoutError => 504
  | .connectTimeout => 504
  | .otherFailure => 502

/-- The usage event built inside the background task of step 8: its
`amountUsdc`/`endpointId` come from `resolveEndpointPrice` on the entry's
endpoints and the wildcard sub-path. -/
def proxyUsageEvent (requestId apiKeyHeader : String) (keyRecord : ApiKey)
    (apiEntry : ApiRegistryEntry) (wildcardPath : String) (status : Nat)
    (eventId timestamp : String) : UsageEvent :=
  { id := eventId
    requestId := requestId
    apiKey := apiKeyHeader
    apiKeyId := keyRecord.key
    apiId := apiEntry.id
    endpointId := (resolveEndpointPrice apiEntry.endpoints wildcardPath).endpointId
    userId := keyRecord.developerId
    amountUsdc := (resolveEndpointPrice apiEntry.endpoints wildcardPath).priceUsdc
    statusCode := status
    timestamp := timestamp }

/-- Result of the background recording step: the updated store and billing
state, whether `record` was called and what it returned, and the
`deductCredit` invocation (developer, amount) when one was issued.  The
client response is a function of the forward outcome alone and is already
sent before this step runs, so nothing here feeds back into it. -/
structure RecordOutcome where
  store : UsageStoreState
  billing : MockSorobanBilling
  recordCalled : Bool
  recorded : Bool
  deduction : Option (String × ℚ)
deriving DecidableEq, Repr

/-- Step 8 of `handleProxy`: when the recordable-status predicate accepts
the final status, record the usage event and, only if `record` returned
`true` and the price is positive, deduct the price from the developer's
balance. -/
def recordUsageAndBill (recordable : Nat → Bool) (upstreamStatus : Nat)
    (store : UsageStoreState) (billing : MockSorobanBilling)
    (ev : UsageEvent) : RecordOutcome :=
  if recordable upstreamStatus then
    let res := store.record ev
    if res.2 && decide (0 < ev.amountUsdc) then
      { store := res.1
        billing := (billing.deductCredit ev.userId ev.amountUsdc).1
        recordCalled := true
        recorded := res.2
        deduction := some (ev.userId, ev.amountUsdc) }
    else
      { store := res.1, billing := billing, recordCalled := true
        recorded := res.2, deduction := none }
  else
    { store := store, billing := billing, recordCalled := false
      recorded := false, deduction := none }

/-! ## Billing ledger — services/billing.ts

Modelled from the spec: the `BillingService` ledger implementation
(`billing.ts`, the transactional `deduct` protocol against the persistent
store and the Soroban settlement client) is not part of the repository
snapshot — only its unit tests are.  The model below follows §4.4 of the
spec, cross-checked against the expectations of those unit tests: look up
an existing row by `requestId` and return it with `alreadyProcessed=true`
without settling again; otherwise insert a placeholder row, call the
settlement service once, and either commit the row with the transaction
hash or roll the whole transaction back on settlement failure. -/

/-- A persisted usage row keyed by `requestId` (uniqueness-constrained). -/
structure LedgerRow where
  id : Nat
  requestId : String
  stellarTxHash : Option String
deriving DecidableEq, Repr

/-- Ledger state: the committed rows, the next row id, and a counter of
settlement-service invocations. -/
structure LedgerState where
  rows : List LedgerRow
  nextId : Nat
  settlementCalls : Nat
deriving DecidableEq, Repr

/-- Result of `BillingService.deduct`. -/
structure DeductResult where
  success : Bool
  usageEventId : Option Nat
  stellarTxHash : Option String
  alreadyProcessed : Bool
  error : Option String
deriving DecidableEq, Repr

/-- Behaviour of the external settlement service for one call. -/
inductive SettlementBehavior where
  | succeeds (txHash : String)
  | fails (msg : String)
deriving DecidableEq, Repr

/-- Modelled from the spec: `BillingService.deduct` (§4.4 protocol).  The
settlement behaviour for this call is passed explicitly; it is consulted —
and the invocation counter bumped — only when no row for `requestId`
exists yet. -/
def LedgerState.deduct (st : LedgerState) (settlement : SettlementBehavior)
    (requestId : String) : LedgerState × DeductResult :=
  match st.rows.find? (fun r => r.requestId == requestId) with
  | some row =>
    (st, { success := true, usageEventId := some row.id,
           stellarTxHash := row.stellarTxHash, alreadyProcessed := true,
           error := none })
  | none =>
    match settlement with
    | .succeeds txHash =>
      ({ rows := st.rows ++ [⟨st.nextId, requestId, some txHash⟩],
         nextId := st.nextId + 1,
         settlementCalls := st.settlementCalls + 1 },
       { success := true, usageEventId := some st.nextId,
         stellarTxHash := some txHash, alreadyProcessed := false,
         error := none })
    | .fails msg =>
      ({ st with settlementCalls := st.settlementCalls + 1 },
       { success := false, usageEventId := none, stellarTxHash := none,
         alreadyProcessed := false, error := some msg })

/-! ## Demo values used to instantiate theorems and witnesses -/

/-- The endpoint map of the spec's PricingResolver example:
`{"/data": 0.05, "/free": 0, "*": 0.01}`. -/
def examplePricingEndpoints : List EndpointPricing :=
  [⟨"ep-data", "/data", 5/100⟩, ⟨"ep-free", "/free", 0⟩, ⟨"ep-any", "*", 1/100⟩]

/-- A limiter with `max=2, window=1000ms` and no buckets yet. -/
def rlDemo0 : InMemoryRateLimiter := ⟨[], 2, 1000⟩

/-- The demo limiter after one allowed call at time 0. -/
def rlDemo1 : InMemoryRateLimiter := (rlDemo0.check "key" 0).1

/-- The demo limiter after two allowed calls, quota exhausted. -/
def rlDemo2 : InMemoryRateLimiter := (rlDemo1.check "key" 10).1

/-- The demo limiter after the denied third call. -/
def rlDemo3 : InMemoryRateLimiter := (rlDemo2.check "key" 20).1

/-- A demo registry entry used to instantiate the proxy theorems. -/
def demoApiEntry : ApiRegistryEntry :=
  { id := "api_001", slug := "weather-api", base_url := "http://localhost:4000",
    developerId := "dev_001",
    endpoints := [⟨"ep_weather_current", "/current", 1/100⟩,
                  ⟨"ep_weather_default", "*", 5/1000⟩] }

/-- A demo API key used to instantiate the proxy theorems. -/
def demoKeyRecord : ApiKey :=
  { key := "key_abc", developerId := "dev_001", apiId := "api_001" }

/-- The store invariant maintained by `record`: the `requestIds` set is
exactly the (duplicate-free) list of the recorded events' request ids. -/
def storeInv (st : UsageStoreState) : Prop :=
  st.requestIds = st.events.map UsageEvent.requestId ∧ st.requestIds.Nodup

/-! ## Helper lemmas -/

lemma storeInv_empty : storeInv UsageStoreState.empty :=
  ⟨rfl, List.nodup_nil⟩

lemma storeInv_record (st : UsageStoreState) (ev : UsageEvent)
    (h : storeInv st) : storeInv (st.record ev).1 := by
  unfold UsageStoreState.record
  by_cases hm : ev.requestId ∈ st.requestIds
  · simpa [hm] using h
  · rw [if_neg hm]
    refine ⟨?_, ?_⟩
    · simp [h.1]
    · rw [List.nodup_append]
      exact ⟨h.2, List.nodup_singleton _, by
        intro a ha hb
        rw [List.mem_singleton] at hb
        exact hm (hb ▸ ha)⟩

lemma storeInv_runRecords (evs : List UsageEvent) :
    ∀ st : UsageStoreState, storeInv st → storeInv (st.runRecords evs) := by
  induction evs with
  | nil => intro st h; exact h
  | cons e rest ih =>
    intro st h
    exact ih _ (storeInv_record st e h)

lemma length_filter_le_one {α β : Type} [DecidableEq β] (f : α → β) (c : β) :
    ∀ l : List α, (l.map f).Nodup → (l.filter (fun x => f x == c)).length ≤ 1 := by
  intro l
  induction l with
  | nil => intro _; simp
  | cons x xs ih =>
    intro h
    rw [List.map_cons, List.nodup_cons] at h
    by_cases hx : f x = c
    · have hxs : xs.filter (fun y => f y == c) = [] := by
        apply List.filter_eq_nil_iff.mpr
        intro y hy
        simp only [beq_iff_eq]
        intro hyc
        exact h.1 (by rw [hx, ← hyc]; exact List.mem_map_of_mem f hy)
      simp [List.filter_cons, hx, hxs]
    · simp only [List.filter_cons, beq_iff_eq, hx, ite_false, decide_eq_true_eq,
        if_neg]
      exact ih h.2

/-! ## C1 — usage store idempotency -/

/-- C1: over every sequence of `UsageStore.record` calls starting from the
empty store, the store holds at most one `UsageEvent` per `requestId`;
`record` returns `true` exactly when the `requestId` was not previously
recorded (and then appends the event), returns `false` otherwise leaving
the store unchanged; and `hasEvent requestId` holds iff some recorded
event carries that `requestId`. -/
theorem usageStore_record_idempotent (evs : List UsageEvent) :
    let st := UsageStoreState.empty.runRecords evs
    (∀ rid, (st.events.filter (fun e => e.requestId == rid)).length ≤ 1)
    ∧ (∀ ev, (st.record ev).2 = !(st.hasEvent ev.requestId))
    ∧ (∀ ev, st.hasEvent ev.requestId = true → st.record ev = (st, false))
    ∧ (∀ ev, st.hasEvent ev.requestId = false →
        (st.record ev).1.events = st.events ++ [ev] ∧ (st.record ev).2 = true)
    ∧ (∀ rid, st.hasEvent rid = true ↔ ∃ e ∈ st.events, e.requestId = rid) := by
  intro st
  have hinv : storeInv st := storeInv_runRecords evs _ storeInv_empty
  refine ⟨?_, ?_, ?_, ?_, ?_⟩
  · intro rid
    exact length_filter_le_one UsageEvent.requestId rid st.events (hinv.1 ▸ hinv.2)
  · intro ev
    by_cases hm : ev.requestId ∈ st.requestIds <;>
      simp [UsageStoreState.record, UsageStoreState.hasEvent, hm]
  · intro ev hev
    have hm : ev.requestId ∈ st.requestIds := by
      simpa [UsageStoreState.hasEvent] using hev
    simp [UsageStoreState.record, hm]
  · intro ev hev
    have hm : ev.requestId ∉ st.requestIds := by
      simpa [UsageStoreState.hasEvent] using hev
    simp [UsageStoreState.record, hm]
  · intro rid
    constructor
    · intro hev
      have hm : rid ∈ st.requestIds := by
        simpa [UsageStoreState.hasEvent] using hev
      rw [hinv.1, List.mem_map] at hm
      obtain ⟨e, he, hre⟩ := hm
      exact ⟨e, he, hre⟩
    · intro ⟨e, he, hre⟩
      have hm : rid ∈ st.requestIds := by
        rw [hinv.1, List.mem_map]
        exact ⟨e, he, hre⟩
      simpa [UsageStoreState.hasEvent] using hm

/-! ## C4 — pricing resolver -/

lemma pickBest_congr (q₁ q₂ : EndpointPricing → Bool) (x : EndpointPricing)
    (h : q₁ x = q₂ x) (o : Option EndpointPricing) :
    pickBest q₁ x o = pickBest q₂ x o := by
  cases o <;> simp [pickBest, h]

lemma pickBest_neg (q : EndpointPricing → Bool) (x : EndpointPricing)
    (h : q x = false) (o : Option EndpointPricing) :
    pickBest q x o = o := by
  cases o <;> simp [pickBest, h]

lemma find?_cons_eq {α : Type} (q : α → Bool) (a : α) (l : List α) :
    (a :: l).find? q = cond (q a) (some a) (l.find? q) := by
  cases h : q a <;> simp [List.find?_cons, h]

lemma find?_append_none {α : Type} (p : α → Bool) (l₁ l₂ : List α)
    (h : l₁.find? p = none) : (l₁ ++ l₂).find? p = l₂.find? p := by
  induction l₁ with
  | nil => rfl
  | cons x xs ih =>
    rw [find?_cons_eq] at h
    rw [List.cons_append, find?_cons_eq]
    cases hx : p x with
    | true => rw [hx] at h; simp at h
    | false => rw [hx] at h; exact ih h

lemma find?_orderedInsert (q : EndpointPricing → Bool) (x : EndpointPricing) :
    ∀ s : List EndpointPricing, List.Sorted epGE s →
      (List.orderedInsert epGE x s).find? q = pickBest q x (s.find? q) := by
  intro s
  induction s with
  | nil =>
    intro _
    cases hq : q x <;> simp [List.orderedInsert, List.find?, pickBest, hq]
  | cons b t ih =>
    intro hs
    rw [List.sorted_cons] at hs
    rw [List.orderedInsert]
    by_cases hxb : epGE x b
    · rw [if_pos hxb, find?_cons_eq q x (b :: t)]
      cases hq : q x with
      | false => exact (pickBest_neg q x hq _).symm
      | true =>
        cases ho : (b :: t).find? q with
        | none => simp [pickBest, hq]
        | some y =>
          have hy : y ∈ b :: t := List.mem_of_find?_eq_some ho
          have hlen : y.path.length ≤ x.path.length := by
            rcases List.mem_cons.mp hy with hyb | hyt
            · exact hyb ▸ hxb
            · exact le_trans (hs.1 y hyt) hxb
          simp [pickBest, hq, Nat.not_lt.mpr hlen]
    · rw [if_neg hxb]
      have hbx : x.path.length < b.path.length := Nat.lt_of_not_le hxb
      rw [find?_cons_eq q b (List.orderedInsert epGE x t), find?_cons_eq q b t]
      cases hqb : q b with
      | true =>
        cases hq : q x <;> simp [pickBest, hq, hbx]
      | false =>
        exact ih hs.2

lemma find?_insertionSort (q : EndpointPricing → Bool) :
    ∀ l : List EndpointPricing,
      (List.insertionSort epGE l).find? q = bestMatch q l := by
  intro l
  induction l with
  | nil => rfl
  | cons x l ih =>
    rw [List.insertionSort,
      find?_orderedInsert q x _ (List.sorted_insertionSort epGE l), ih]
    rfl

lemma bestMatch_filter (c q : EndpointPricing → Bool) :
    ∀ l : List EndpointPricing,
      bestMatch q (l.filter c) = bestMatch (fun e => c e && q e) l := by
  intro l
  induction l with
  | nil => rfl
  | cons x l ih =>
    cases hc : c x with
    | true =>
      rw [List.filter_cons_of_pos (by simp [hc])]
      show pickBest q x (bestMatch q (l.filter c)) = _
      rw [ih]
      exact pickBest_congr _ _ x (by simp [hc]) _
    | false =>
      rw [List.filter_cons_of_neg (by simp [hc])]
      rw [ih]
      show _ = pickBest (fun e => c e && q e) x (bestMatch (fun e => c e && q e) l)
      rw [pickBest_neg _ x (by simp [hc])]

/-- C4: `resolveEndpointPrice` is total and agrees, on every endpoint list
and sub-path, with the spec's selection rule — the longest-pattern prefix
match among non-wildcard entries with ties broken by original order, then
the wildcard entry, then a synthetic zero-price default — and on the
spec's examples `/data/x` resolves to 0.05, `/unknown` to the 0.01
wildcard, and the empty endpoint list to 0. -/
theorem resolveEndpointPrice_spec :
    (∀ (endpoints : List EndpointPricing) (path : String),
      resolveEndpointPrice endpoints path = resolveEndpointPriceSpec endpoints path)
    ∧ (resolveEndpointPrice examplePricingEndpoints "/data/x").priceUsdc = 5/100
    ∧ (resolveEndpointPrice examplePricingEndpoints "/unknown").priceUsdc = 1/100
    ∧ (resolveEndpointPrice [] "/anything").priceUsdc = 0 := by
  refine ⟨?_, rfl, rfl, rfl⟩
  intro endpoints path
  simp only [resolveEndpointPrice, resolveEndpointPriceSpec,
    find?_insertionSort, bestMatch_filter]

/-! ## C5 — rate limiter -/

/-- C5: `check` creates a full bucket on first sight, resets it when the
window has elapsed, denies with `retryAfterMs = windowMs - (now -
windowStartedAt)` clamped to `≥ 0` — hence always between 0 and
`windowMs` whenever the stored window start is not in the future — and
otherwise decrements and allows.  With `max=2, window=1000ms`: two calls
are allowed, a third within the window is denied with
`retryAfterMs = 980 ≤ 1000`, and a call after the window elapses is
allowed again with the quota reset to full (bucket back to
`maxRequests - 1` tokens and window start `now`). -/
theorem rateLimiter_check_spec (st : InMemoryRateLimiter) (key : String)
    (now : Int) (hwin : 0 < st.windowMs)
    (hmono : ∀ b, getAssoc st.buckets key = some b → b.lastRefill ≤ now) :
    ((st.check key now).2.allowed = false →
      ∃ r, (st.check key now).2.retryAfterMs = some r ∧ 0 ≤ r ∧ r ≤ st.windowMs)
    ∧ (rlDemo0.check "key" 0).2.allowed = true
    ∧ (rlDemo1.check "key" 10).2.allowed = true
    ∧ (rlDemo2.check "key" 20).2 = ⟨false, some 980⟩
    ∧ (980 : Int) ≤ 1000
    ∧ (rlDemo3.check "key" 1100).2.allowed = true
    ∧ getAssoc (rlDemo3.check "key" 1100).1.buckets "key" = some ⟨1, 1100⟩ := by
  refine ⟨?_, by decide, by decide, by decide, by decide, by decide, by decide⟩
  simp only [InMemoryRateLimiter.check]
  set b0 : TokenBucket := (getAssoc st.buckets key).getD ⟨st.maxRequests, now⟩
    with hb0
  have hlr : b0.lastRefill ≤ now := by
    rw [hb0]
    cases hb : getAssoc st.buckets key with
    | none => simp
    | some b => simpa using hmono b hb
  by_cases hreset : st.windowMs ≤ now - b0.lastRefill
  · rw [if_pos hreset]
    have hlr2 : (⟨st.maxRequests, now⟩ : TokenBucket).lastRefill = now := rfl
    by_cases htok : (⟨st.maxRequests, now⟩ : TokenBucket).tokens ≤ 0
    · rw [if_pos htok]
      intro _
      refine ⟨_, rfl, le_max_right _ _, max_le ?_ ?_⟩
      · rw [hlr2]; omega
      · omega
    · rw [if_neg htok]
      intro hfalse
      simp at hfalse
  · rw [if_neg hreset]
    by_cases htok : b0.tokens ≤ 0
    · rw [if_pos htok]
      intro _
      refine ⟨_, rfl, le_max_right _ _, max_le ?_ ?_⟩
      · omega
      · omega
    · rw [if_neg htok]
      intro hfalse
      simp at hfalse

/-- Closed instance of C5's denial bound at the exhausted demo limiter. -/
theorem rateLimiter_check_spec_witness :
    (0 : Int) < rlDemo2.windowMs
    ∧ ((rlDemo2.check "key" 20).2.allowed = false →
        ∃ r, (rlDemo2.check "key" 20).2.retryAfterMs = some r
          ∧ 0 ≤ r ∧ r ≤ rlDemo2.windowMs) :=
  ⟨by decide,
    (rateLimiter_check_spec rlDemo2 "key" 20 (by decide)
      (by
        intro b hb
        have h : getAssoc rlDemo2.buckets "key" = some ⟨0, 0⟩ := by decide
        rw [h] at hb
        injection hb with hb'
        rw [← hb']
        decide)).1⟩

/-! ## C2, C3 — billing ledger (spec-modelled, see `LedgerState.deduct`) -/

/-- C2: for a fixed `requestId`, a second `deduct` with identical
parameters returns the same `usageEventId` and the same settlement
transaction hash as the first, reports `alreadyProcessed = true` (the
first call reported `false`), and the settlement service is invoked
exactly once across both calls — whatever it would have done on a second
invocation. -/
theorem billingLedger_deduct_idempotent (st : LedgerState)
    (requestId txHash : String) (s2 : SettlementBehavior)
    (hfresh : st.rows.find? (fun r => r.requestId == requestId) = none) :
    (st.deduct (.succeeds txHash) requestId).2.alreadyProcessed = false
    ∧ ((st.deduct (.succeeds txHash) requestId).1.deduct s2
        requestId).2.alreadyProcessed = true
    ∧ ((st.deduct (.succeeds txHash) requestId).1.deduct s2
        requestId).2.usageEventId
      = (st.deduct (.succeeds txHash) requestId).2.usageEventId
    ∧ ((st.deduct (.succeeds txHash) requestId).1.deduct s2
        requestId).2.stellarTxHash
      = (st.deduct (.succeeds txHash) requestId).2.stellarTxHash
    ∧ ((st.deduct (.succeeds txHash) requestId).1.deduct s2
        requestId).1.settlementCalls = st.settlementCalls + 1 := by
  have h1 : st.deduct (.succeeds txHash) requestId =
      ({ rows := st.rows ++ [⟨st.nextId, requestId, some txHash⟩],
         nextId := st.nextId + 1,
         settlementCalls := st.settlementCalls + 1 },
       { success := true, usageEventId := some st.nextId,
         stellarTxHash := some txHash, alreadyProcessed := false,
         error := none }) := by
    unfold LedgerState.deduct
    rw [hfresh]
  have h2 : (st.rows ++ [(⟨st.nextId, requestId, some txHash⟩ : LedgerRow)]).find?
      (fun r => r.requestId == requestId)
      = some ⟨st.nextId, requestId, some txHash⟩ := by
    rw [find?_append_none _ _ _ hfresh, find?_cons_eq]
    simp
  rw [h1]
  unfold LedgerState.deduct
  rw [h2]
  simp

/-- C3: when the settlement call fails, `deduct` reports a settlement
failure (`success = false`, `alreadyProcessed = false`) and the
transaction is rolled back — the placeholder row for that `requestId`
does not survive — so a later `deduct` with the same `requestId` starts
fresh (it settles anew, with `alreadyProcessed = false`). -/
theorem billingLedger_settlementFailure_rollback (st : LedgerState)
    (requestId msg txHash : String)
    (hfresh : st.rows.find? (fun r => r.requestId == requestId) = none) :
    (st.deduct (.fails msg) requestId).2.success = false
    ∧ (st.deduct (.fails msg) requestId).2.alreadyProcessed = false
    ∧ (st.deduct (.fails msg) requestId).1.rows = st.rows
    ∧ ((st.deduct (.fails msg) requestId).1.deduct (.succeeds txHash)
        requestId).2.alreadyProcessed = false
    ∧ ((st.deduct (.fails msg) requestId).1.deduct (.succeeds txHash)
        requestId).2.success = true := by
  have h1 : st.deduct (.fails msg) requestId =
      ({ st with settlementCalls := st.settlementCalls + 1 },
       { success := false, usageEventId := none, stellarTxHash := none,
         alreadyProcessed := false, error := some msg }) := by
    unfold LedgerState.deduct
    rw [hfresh]
  rw [h1]
  unfold LedgerState.deduct
  rw [show ({ st with settlementCalls := st.settlementCalls + 1 } :
      LedgerState).rows = st.rows from rfl, hfresh]
  simp

/-- Closed instance of C2's idempotence at a concrete ledger. -/
theorem billingLedger_deduct_idempotent_witness :
    (([] : List LedgerRow).find? (fun r => r.requestId == "req-1") = none)
    ∧ (((⟨[], 1, 0⟩ : LedgerState).deduct (.succeeds "tx-1")
        "req-1").1.deduct (.succeeds "tx-2") "req-1").2.alreadyProcessed
      = true :=
  ⟨rfl, (billingLedger_deduct_idempotent ⟨[], 1, 0⟩ "req-1" "tx-1"
    (.succeeds "tx-2") rfl).2.1⟩

/-- Closed instance of C3's rollback at a concrete ledger. -/
theorem billingLedger_settlementFailure_rollback_witness :
    (([] : List LedgerRow).find? (fun r => r.requestId == "req-9") = none)
    ∧ ((⟨[], 1, 0⟩ : LedgerState).deduct (.fails "Soroban deduction failed")
        "req-9").1.rows = [] :=
  ⟨rfl, (billingLedger_settlementFailure_rollback ⟨[], 1, 0⟩ "req-9"
    "Soroban deduction failed" "tx-1" rfl).2.2.1⟩

/-! ## C7 — header forwarding -/

lemma mem_setAssoc_elim {β : Type} (l : List (String × β)) (k : String)
    (v : β) (a : String) (b : β) (h : (a, b) ∈ setAssoc l k v) :
    (a, b) = (k, v) ∨ (a, b) ∈ l := by
  induction l with
  | nil => simpa [setAssoc] using h
  | cons p rest ih =>
    obtain ⟨k', v'⟩ := p
    rw [setAssoc] at h
    by_cases hk : k' = k
    · rw [if_pos (by simp [hk])] at h
      rcases List.mem_cons.mp h with h1 | h1
      · exact Or.inl h1
      · exact Or.inr (List.mem_cons_of_mem _ h1)
    · rw [if_neg (by simp [hk])] at h
      rcases List.mem_cons.mp h with h1 | h1
      · exact Or.inr (h1 ▸ List.mem_cons_self _ _)
      · rcases ih h1 with h2 | h2
        · exact Or.inl h2
        · exact Or.inr (List.mem_cons_of_mem _ h2)

lemma setAssoc_mem_of_ne {β : Type} (l : List (String × β)) (k : String)
    (v : β) (a : String) (b : β) (hne : a ≠ k) (h : (a, b) ∈ l) :
    (a, b) ∈ setAssoc l k v := by
  induction l with
  | nil => cases h
  | cons p rest ih =>
    obtain ⟨k', v'⟩ := p
    rw [setAssoc]
    by_cases hk : k' = k
    · rw [if_pos (by simp [hk])]
      rcases List.mem_cons.mp h with h1 | h1
      · exact absurd (congrArg Prod.fst h1) (by simpa using hk ▸ hne)
      · exact List.mem_cons_of_mem _ h1
    · rw [if_neg (by simp [hk])]
      rcases List.mem_cons.mp h with h1 | h1
      · exact h1 ▸ List.mem_cons_self _ _
      · exact List.mem_cons_of_mem _ (ih h1)

lemma setAssoc_self_mem {β : Type} (l : List (String × β)) (k : String)
    (v : β) : (k, v) ∈ setAssoc l k v := by
  induction l with
  | nil => simp [setAssoc]
  | cons p rest ih =>
    obtain ⟨k', v'⟩ := p
    rw [setAssoc]
    by_cases hk : k' = k
    · rw [if_pos (by simp [hk])]
      exact List.mem_cons_self _ _
    · rw [if_neg (by simp [hk])]
      exact List.mem_cons_of_mem _ ih

lemma getAssoc_setAssoc_self {β : Type} (l : List (String × β)) (k : String)
    (v : β) : getAssoc (setAssoc l k v) k = some v := by
  induction l with
  | nil => simp [setAssoc, getAssoc, List.find?]
  | cons p rest ih =>
    obtain ⟨k', v'⟩ := p
    rw [setAssoc]
    by_cases hk : k' = k
    · rw [if_pos (by simp [hk])]
      simp [getAssoc, List.find?]
    · rw [if_neg (by simp [hk])]
      simpa [getAssoc, find?_cons_eq, hk] using ih

lemma copyHeaders_mem (ss : List String) (a : String) (b : String) :
    ∀ (inbound : List (String × HeaderValue)) (acc : List (String × String)),
      (a, b) ∈ copyHeaders ss acc inbound →
      (a, b) ∈ acc
      ∨ ((a, HeaderValue.str b) ∈ inbound ∧ ss.contains (lowerStr a) = false) := by
  intro inbound
  induction inbound with
  | nil => intro acc h; exact Or.inl h
  | cons p rest ih =>
    intro acc h
    obtain ⟨k, v⟩ := p
    cases v with
    | strs vs =>
      rcases ih _ h with h1 | h1
      · exact Or.inl h1
      · exact Or.inr ⟨List.mem_cons_of_mem _ h1.1, h1.2⟩
    | str s =>
      rw [copyHeaders] at h
      by_cases hd : ss.contains (lowerStr k) = true
      · rw [if_pos hd] at h
        rcases ih _ h with h1 | h1
        · exact Or.inl h1
        · exact Or.inr ⟨List.mem_cons_of_mem _ h1.1, h1.2⟩
      · rw [if_neg hd] at h
        rcases ih _ h with h1 | h1
        · rcases mem_setAssoc_elim _ _ _ _ _ h1 with h2 | h2
          · have ha : a = k := congrArg Prod.fst h2
            have hb : b = s := congrArg Prod.snd h2
            refine Or.inr ⟨?_, ?_⟩
            · rw [ha, hb]; exact List.mem_cons_self _ _
            · rw [ha]; exact Bool.eq_false_iff.mpr hd
          · exact Or.inl h2
        · exact Or.inr ⟨List.mem_cons_of_mem _ h1.1, h1.2⟩

lemma copyHeaders_preserve (ss : List String) (a : String) (b : String) :
    ∀ (inbound : List (String × HeaderValue)) (acc : List (String × String)),
      (a, b) ∈ acc → a ∉ inbound.map Prod.fst →
      (a, b) ∈ copyHeaders ss acc inbound := by
  intro inbound
  induction inbound with
  | nil => intro acc h _; exact h
  | cons p rest ih =>
    intro acc h hnm
    obtain ⟨k, v⟩ := p
    rw [List.map_cons, List.mem_cons] at hnm
    push_neg at hnm
    cases v with
    | strs vs => exact ih _ h hnm.2
    | str s =>
      rw [copyHeaders]
      by_cases hd : ss.contains (lowerStr k) = true
      · rw [if_pos hd]
        exact ih _ h hnm.2
      · rw [if_neg hd]
        exact ih _ (setAssoc_mem_of_ne _ _ _ _ _ hnm.1 h) hnm.2

lemma copyHeaders_copies (ss : List String) (a : String) (s : String) :
    ∀ (inbound : List (String × HeaderValue)) (acc : List (String × String)),
      (a, HeaderValue.str s) ∈ inbound →
      ss.contains (lowerStr a) = false →
      (inbound.map Prod.fst).Nodup →
      (a, s) ∈ copyHeaders ss acc inbound := by
  intro inbound
  induction inbound with
  | nil => intro acc h; cases h
  | cons p rest ih =>
    intro acc hmem hallow hnd
    obtain ⟨k, v⟩ := p
    rw [List.map_cons, List.nodup_cons] at hnd
    rcases List.mem_cons.mp hmem with h1 | h1
    · have ha : a = k := congrArg Prod.fst h1
      have hv : HeaderValue.str s = v := congrArg Prod.snd h1
      subst ha
      cases hv
      rw [copyHeaders, if_neg (by rw [hallow]; simp)]
      exact copyHeaders_preserve ss a s rest _ (setAssoc_self_mem _ _ _) hnd.1
    · cases v with
      | strs vs => exact ih _ h1 hallow hnd.2
      | str s' =>
        rw [copyHeaders]
        by_cases hd : ss.contains (lowerStr k) = true
        · rw [if_pos hd]
          exact ih _ h1 hallow hnd.2
        · rw [if_neg hd]
          exact ih _ h1 hallow hnd.2

/-- C7 (amended): every pair in the outbound header map has a lower-cased
name outside the deny-list — in particular nothing named `x-api-key` in
any casing survives — every string-valued inbound header whose lower-cased
name is not deny-listed and whose name is not `x-request-id` is copied
through unchanged, and the outbound `x-request-id` is the freshly
generated request id.  (The inbound `x-request-id` header is the one
non-deny-listed header that is not copied through: the fresh id
overwrites it — see the counterexample.) -/
theorem proxy_forward_headers (inbound : List (String × HeaderValue))
    (requestId : String) (hnodup : (inbound.map Prod.fst).Nodup) :
    (∀ a b, (a, b) ∈ buildForwardHeaders DEFAULT_STRIP_HEADERS inbound requestId →
      (DEFAULT_STRIP_HEADERS.map lowerStr).contains (lowerStr a) = false)
    ∧ (∀ a b, (a, b) ∈ buildForwardHeaders DEFAULT_STRIP_HEADERS inbound requestId →
      lowerStr a ≠ "x-api-key")
    ∧ (∀ a s, (a, HeaderValue.str s) ∈ inbound →
      (DEFAULT_STRIP_HEADERS.map lowerStr).contains (lowerStr a) = false →
      a ≠ "x-request-id" →
      (a, s) ∈ buildForwardHeaders DEFAULT_STRIP_HEADERS inbound requestId)
    ∧ getAssoc (buildForwardHeaders DEFAULT_STRIP_HEADERS inbound requestId)
        "x-request-id" = some requestId := by
  have hpart1 : ∀ a b,
      (a, b) ∈ buildForwardHeaders DEFAULT_STRIP_HEADERS inbound requestId →
      (DEFAULT_STRIP_HEADERS.map lowerStr).contains (lowerStr a) = false := by
    intro a b h
    unfold buildForwardHeaders at h
    rcases mem_setAssoc_elim _ _ _ _ _ h with h1 | h1
    · have ha : a = "x-request-id" := congrArg Prod.fst h1
      rw [ha]
      decide
    · rcases copyHeaders_mem _ _ _ _ _ h1 with h2 | h2
      · cases h2
      · exact h2.2
  refine ⟨hpart1, ?_, ?_, ?_⟩
  · intro a b h heq
    have h1 := hpart1 a b h
    rw [heq] at h1
    revert h1
    decide
  · intro a s hmem hallow hne
    unfold buildForwardHeaders
    exact setAssoc_mem_of_ne _ _ _ _ _ hne
      (copyHeaders_copies _ _ _ _ _ hmem hallow hnodup)
  · exact getAssoc_setAssoc_self _ _ _

/-- C7 counterexample to the claim as stated: an inbound string-valued
`x-request-id` header is not in the deny-list, yet it is not copied
through unchanged — the freshly generated id overwrites it. -/
theorem proxy_forward_headers_counterexample :
    ([("x-request-id", HeaderValue.str "client-id")].map Prod.fst).Nodup
    ∧ (DEFAULT_STRIP_HEADERS.map lowerStr).contains (lowerStr "x-request-id")
        = false
    ∧ ¬ (("x-request-id", "client-id") ∈ buildForwardHeaders
        DEFAULT_STRIP_HEADERS [("x-request-id", HeaderValue.str "client-id")]
        "fresh-id")
    ∧ getAssoc (buildForwardHeaders DEFAULT_STRIP_HEADERS
        [("x-request-id", HeaderValue.str "client-id")] "fresh-id")
        "x-request-id" = some "fresh-id" := by
  refine ⟨by decide, by decide, by decide, by decide⟩

/-- Closed instance of C7's amended statement. -/
theorem proxy_forward_headers_witness :
    ([("accept", HeaderValue.str "application/json"),
      ("X-Api-Key", HeaderValue.str "secret")].map Prod.fst).Nodup
    ∧ ("accept", "application/json") ∈ buildForwardHeaders
        DEFAULT_STRIP_HEADERS
        [("accept", HeaderValue.str "application/json"),
         ("X-Api-Key", HeaderValue.str "secret")] "fresh-id" :=
  ⟨by decide,
    (proxy_forward_headers
      [("accept", HeaderValue.str "application/json"),
       ("X-Api-Key", HeaderValue.str "secret")] "fresh-id"
      (by decide)).2.2.1 "accept" "application/json"
      (by decide) (by decide) (by decide)⟩

/-! ## C6, C8, C10 — background recording step, error classification,
balance pre-check -/

lemma record_fresh (store : UsageStoreState) (ev : UsageEvent)
    (hfresh : store.hasEvent ev.requestId = false) :
    store.record ev =
      ({ events := store.events ++ [ev],
         requestIds := store.requestIds ++ [ev.requestId] }, true) := by
  have hm : ev.requestId ∉ store.requestIds := by
    simpa [UsageStoreState.hasEvent] using hfresh
  unfold UsageStoreState.record
  rw [if_neg hm]

lemma record_dup (store : UsageStoreState) (ev : UsageEvent)
    (hdup : store.hasEvent ev.requestId = true) :
    store.record ev = (store, false) := by
  have hm : ev.requestId ∈ store.requestIds := by
    simpa [UsageStoreState.hasEvent] using hdup
  unfold UsageStoreState.record
  rw [if_pos hm]

lemma recordUsageAndBill_fresh_pos (recordable : Nat → Bool) (status : Nat)
    (store : UsageStoreState) (billing : MockSorobanBilling) (ev : UsageEvent)
    (hrec : recordable status = true)
    (hfresh : store.hasEvent ev.requestId = false)
    (hprice : 0 < ev.amountUsdc) :
    recordUsageAndBill recordable status store billing ev =
      { store := { events := store.events ++ [ev],
                   requestIds := store.requestIds ++ [ev.requestId] }
        billing := (billing.deductCredit ev.userId ev.amountUsdc).1
        recordCalled := true
        recorded := true
        deduction := some (ev.userId, ev.amountUsdc) } := by
  unfold recordUsageAndBill
  rw [hrec, record_fresh store ev hfresh]
  simp [hprice]

lemma recordUsageAndBill_not_recordable (recordable : Nat → Bool) (status : Nat)
    (store : UsageStoreState) (billing : MockSorobanBilling) (ev : UsageEvent)
    (hrec : recordable status = false) :
    recordUsageAndBill recordable status store billing ev =
      ⟨store, billing, false, false, none⟩ := by
  unfold recordUsageAndBill
  rw [hrec]
  simp

lemma recordUsageAndBill_dup (recordable : Nat → Bool) (status : Nat)
    (store : UsageStoreState) (billing : MockSorobanBilling) (ev : UsageEvent)
    (hrec : recordable status = true)
    (hdup : store.hasEvent ev.requestId = true) :
    recordUsageAndBill recordable status store billing ev =
      ⟨store, billing, true, false, none⟩ := by
  unfold recordUsageAndBill
  rw [hrec, record_dup store ev hdup]
  simp

/-- C6: under the default recordable-status predicate a 200 response
appends exactly one usage event — carrying the price resolved for the
endpoint — and issues exactly one deduction of that price to the caller's
developer (provided `record` returned `true` and the price is positive);
a 500 response records nothing and deducts nothing; with the predicate
overridden to accept every status, the 500 case also records and deducts;
and when `record` returns `false` (duplicate `requestId`) no deduction is
issued. -/
theorem proxy_recordable_status_gating (store : UsageStoreState)
    (billing : MockSorobanBilling) (requestId apiKeyHeader eventId ts : String)
    (keyRecord : ApiKey) (apiEntry : ApiRegistryEntry) (wildcardPath : String)
    (hfresh : store.hasEvent requestId = false)
    (hprice : 0 < (resolveEndpointPrice apiEntry.endpoints wildcardPath).priceUsdc) :
    let price := (resolveEndpointPrice apiEntry.endpoints wildcardPath).priceUsdc
    let ev200 := proxyUsageEvent requestId apiKeyHeader keyRecord apiEntry
      wildcardPath 200 eventId ts
    let ev500 := proxyUsageEvent requestId apiKeyHeader keyRecord apiEntry
      wildcardPath 500 eventId ts
    (recordUsageAndBill defaultRecordable 200 store billing ev200).store.events
      = store.events ++ [ev200]
    ∧ ev200.amountUsdc = price
    ∧ (recordUsageAndBill defaultRecordable 200 store billing ev200).deduction
      = some (keyRecord.developerId, price)
    ∧ (recordUsageAndBill defaultRecordable 200 store billing ev200).billing
      = (billing.deductCredit keyRecord.developerId price).1
    ∧ recordUsageAndBill defaultRecordable 500 store billing ev500
      = ⟨store, billing, false, false, none⟩
    ∧ (recordUsageAndBill (fun _ => true) 500 store billing ev500).store.events
      = store.events ++ [ev500]
    ∧ (recordUsageAndBill (fun _ => true) 500 store billing ev500).deduction
      = some (keyRecord.developerId, price)
    ∧ (∀ store' : UsageStoreState, store'.hasEvent requestId = true →
        recordUsageAndBill defaultRecordable 200 store' billing ev200
          = ⟨store', billing, true, false, none⟩) := by
  intro price ev200 ev500
  have h200 := recordUsageAndBill_fresh_pos defaultRecordable 200 store billing
    ev200 rfl hfresh hprice
  have h500 := recordUsageAndBill_fresh_pos (fun _ => true) 500 store billing
    ev500 rfl hfresh hprice
  refine ⟨by rw [h200], rfl, by rw [h200]; rfl, by rw [h200]; rfl, ?_,
    by rw [h500], by rw [h500]; rfl, ?_⟩
  · exact recordUsageAndBill_not_recordable defaultRecordable 500 store billing
      ev500 rfl
  · intro store' hdup
    exact recordUsageAndBill_dup defaultRecordable 200 store' billing ev200
      rfl hdup

/-- Closed instance of C6 at a concrete store, billing state and entry. -/
theorem proxy_recordable_status_gating_witness :
    UsageStoreState.empty.hasEvent "req-1" = false
    ∧ 0 < (resolveEndpointPrice demoApiEntry.endpoints "current").priceUsdc
    ∧ (recordUsageAndBill defaultRecordable 200 UsageStoreState.empty
        ⟨[("dev_001", 1000)]⟩
        (proxyUsageEvent "req-1" "key_abc" demoKeyRecord demoApiEntry
          "current" 200 "evt-1" "t0")).deduction
      = some ("dev_001", (resolveEndpointPrice demoApiEntry.endpoints
          "current").priceUsdc) :=
  ⟨rfl,
    by
      rw [show (resolveEndpointPrice demoApiEntry.endpoints "current").priceUsdc
        = 1/100 from rfl]
      norm_num,
    (proxy_recordable_status_gating UsageStoreState.empty ⟨[("dev_001", 1000)]⟩
      "req-1" "key_abc" "evt-1" "t0" demoKeyRecord demoApiEntry "current" rfl
      (by
        rw [show (resolveEndpointPrice demoApiEntry.endpoints "current").priceUsdc
          = 1/100 from rfl]
        norm_num)).2.2.1⟩

/-- C8: a deadline exceeded on the upstream call is answered with 504, a
connection failure (e.g. a closed port or unreachable host, surfacing as a
non-timeout fetch error) with 502, and in both cases the default
recordable-status predicate rejects the status, so no usage event is
recorded and no deduction is issued. -/
theorem proxy_upstream_failure_handling (store : UsageStoreState)
    (billing : MockSorobanBilling) (ev : UsageEvent) :
    upstreamStatusOf .timeoutError = 504
    ∧ upstreamStatusOf .otherFailure = 502
    ∧ recordUsageAndBill defaultRecordable (upstreamStatusOf .timeoutError)
        store billing ev = ⟨store, billing, false, false, none⟩
    ∧ recordUsageAndBill defaultRecordable (upstreamStatusOf .otherFailure)
        store billing ev = ⟨store, billing, false, false, none⟩ :=
  ⟨rfl, rfl,
    recordUsageAndBill_not_recordable _ _ _ _ _ rfl,
    recordUsageAndBill_not_recordable _ _ _ _ _ rfl⟩

/-! ## C9 — unauthorized responses are indistinguishable -/

/-- C9: when the presented key is unknown, and when it is known but maps
to a different API than the resolved entry, the proxy responds 401 with
the same error message in both cases. -/
theorem proxy_auth_indistinguishable (apiKeys : List (String × ApiKey))
    (h₁ h₂ entryId : String) (r : ApiKey)
    (hmiss : getAssoc apiKeys h₁ = none)
    (hfound : getAssoc apiKeys h₂ = some r) (hne : r.apiId ≠ entryId) :
    authResponse apiKeys h₁ entryId = some (401, "Unauthorized: invalid API key")
    ∧ authResponse apiKeys h₂ entryId = some (401, "Unauthorized: invalid API key")
    ∧ authResponse apiKeys h₁ entryId = authResponse apiKeys h₂ entryId := by
  have ha : authResponse apiKeys h₁ entryId
      = some (401, "Unauthorized: invalid API key") := by
    unfold authResponse
    rw [hmiss]
  have hb : authResponse apiKeys h₂ entryId
      = some (401, "Unauthorized: invalid API key") := by
    unfold authResponse
    rw [hfound]
    show (if (r.apiId == entryId) = true then none
      else some (401, "Unauthorized: invalid API key"))
      = some (401, "Unauthorized: invalid API key")
    rw [if_neg (by simpa using hne)]
  exact ⟨ha, hb, ha.trans hb.symm⟩

/-- Closed instance of C9: an unknown key and a key registered for a
different API draw identical responses. -/
theorem proxy_auth_indistinguishable_witness :
    getAssoc [("key-b", (⟨"key-b", "dev-2", "api-b"⟩ : ApiKey))] "nope" = none
    ∧ authResponse [("key-b", (⟨"key-b", "dev-2", "api-b"⟩ : ApiKey))]
        "nope" "api-a"
      = authResponse [("key-b", (⟨"key-b", "dev-2", "api-b"⟩ : ApiKey))]
        "key-b" "api-a" :=
  ⟨rfl,
    (proxy_auth_indistinguishable
      [("key-b", ⟨"key-b", "dev-2", "api-b"⟩)] "nope" "key-b" "api-a"
      ⟨"key-b", "dev-2", "api-b"⟩ rfl rfl (by decide)).2.2⟩

/-! ## C10 — balance pre-check at zero, full-price event, failed
background deduction -/

lemma getBalance_setAssoc (billing : MockSorobanBilling) (dev : String)
    (v : ℚ) :
    MockSorobanBilling.getBalance ⟨setAssoc billing.balances dev v⟩ dev = v := by
  unfold MockSorobanBilling.getBalance
  rw [show (⟨setAssoc billing.balances dev v⟩ : MockSorobanBilling).balances
    = setAssoc billing.balances dev v from rfl, getAssoc_setAssoc_self]
  rfl

/-- C10: the 402 pre-check fires only at balance `≤ 0`, so a request with
`0 < balance < price` is forwarded; on a recordable 200 response the
full-price usage event is recorded and a deduction of the full price is
issued; that `deductCredit` fails (`success = false`) and leaves the
billing state — hence the balance — unchanged; in general `deductCredit`
succeeds iff `balance ≥ amount` and subtracts exactly `amount` on
success.  The background step returns no response value, so the failure
cannot surface to the already-answered client. -/
theorem proxy_balance_precheck_insufficient (billing : MockSorobanBilling)
    (dev : String) (store : UsageStoreState) (ev : UsageEvent)
    (hpos : 0 < billing.checkBalance dev)
    (hlt : billing.checkBalance dev < ev.amountUsdc)
    (hdev : ev.userId = dev)
    (hfresh : store.hasEvent ev.requestId = false) :
    balancePreCheck (billing.checkBalance dev) = none
    ∧ (recordUsageAndBill defaultRecordable 200 store billing ev).store.events
      = store.events ++ [ev]
    ∧ (recordUsageAndBill defaultRecordable 200 store billing ev).deduction
      = some (dev, ev.amountUsdc)
    ∧ (recordUsageAndBill defaultRecordable 200 store billing ev).billing
      = billing
    ∧ (billing.deductCredit dev ev.amountUsdc).2.success = false
    ∧ (billing.deductCredit dev ev.amountUsdc).1 = billing
    ∧ (∀ amount : ℚ,
        ((billing.deductCredit dev amount).2.success = true
          ↔ amount ≤ billing.getBalance dev)
        ∧ ((billing.deductCredit dev amount).2.success = true →
          (billing.deductCredit dev amount).1.getBalance dev
            = billing.getBalance dev - amount)) := by
  have hbal : billing.checkBalance dev = billing.getBalance dev := rfl
  have hprice : 0 < ev.amountUsdc := lt_trans hpos hlt
  have hfail : billing.deductCredit dev ev.amountUsdc
      = (billing, { success := false, balance := billing.getBalance dev }) := by
    unfold MockSorobanBilling.deductCredit
    rw [if_pos (hbal ▸ hlt)]
  have h200 := recordUsageAndBill_fresh_pos defaultRecordable 200 store billing
    ev rfl hfresh hprice
  refine ⟨?_, by rw [h200], by rw [h200, hdev], ?_, by rw [hfail], by rw [hfail], ?_⟩
  · unfold balancePreCheck
    rw [if_neg (not_le.mpr hpos)]
  · rw [h200, hdev]
    show (billing.deductCredit dev ev.amountUsdc).1 = billing
    rw [hfail]
  · intro amount
    unfold MockSorobanBilling.deductCredit
    by_cases hc : billing.getBalance dev < amount
    · rw [if_pos hc]
      constructor
      · simp [not_le.mpr hc]
      · intro h
        simp at h
    · rw [if_neg hc]
      constructor
      · simp [not_lt.mp hc]
      · intro _
        exact getBalance_setAssoc billing dev _

/-- Closed instance of C10: balance 1/2, price 1 — the pre-check passes,
and the deduction fails leaving the balance unchanged. -/
theorem proxy_balance_precheck_insufficient_witness :
    0 < (⟨[("dev-1", 1/2)]⟩ : MockSorobanBilling).checkBalance "dev-1"
    ∧ ((⟨[("dev-1", 1/2)]⟩ : MockSorobanBilling).checkBalance "dev-1"
        < (1 : ℚ))
    ∧ balancePreCheck
        ((⟨[("dev-1", 1/2)]⟩ : MockSorobanBilling).checkBalance "dev-1") = none
    ∧ ((⟨[("dev-1", 1/2)]⟩ : MockSorobanBilling).deductCredit "dev-1"
        ((⟨"evt-2", "req-2", "k", "k", "api", "ep", "dev-1", 1, 200, "t"⟩ :
          UsageEvent).amountUsdc)).2.success = false := by
  have hpos : 0 < (⟨[("dev-1", 1/2)]⟩ : MockSorobanBilling).checkBalance "dev-1" := by
    rw [show (⟨[("dev-1", 1/2)]⟩ : MockSorobanBilling).checkBalance "dev-1"
      = 1/2 from rfl]
    norm_num
  have hlt : (⟨[("dev-1", 1/2)]⟩ : MockSorobanBilling).checkBalance "dev-1"
      < ((⟨"evt-2", "req-2", "k", "k", "api", "ep", "dev-1", 1, 200, "t"⟩ :
        UsageEvent).amountUsdc) := by
    rw [show (⟨[("dev-1", 1/2)]⟩ : MockSorobanBilling).checkBalance "dev-1"
      = 1/2 from rfl]
    norm_num
  have h := proxy_balance_precheck_insufficient ⟨[("dev-1", 1/2)]⟩ "dev-1"
    UsageStoreState.empty
    ⟨"evt-2", "req-2", "k", "k", "api", "ep", "dev-1", 1, 200, "t"⟩
    hpos hlt rfl rfl
  exact ⟨hpos, hlt, h.1, h.2.2.2.2.1⟩

end Callora
